import Mathlib

/-!
Verification development for the pod-protocol Python SDK
(`pod_protocol/services/session_keys.py` and
`pod_protocol/services/jito_bundles.py`).

Python dicts keyed by strings are embedded as association lists with
unique keys; `time.time()` floats are embedded as rationals and
`int(time.time())` as truncation toward zero; the external ledger /
relay collaborators are embedded as explicit boolean / sum-typed
parameters recording whether each fallible call succeeds.
-/

namespace PodProtocol

/-- First-match lookup in an association list (Python `dict.get`). -/
def getEntry {α : Type} : List (String × α) → String → Option α
  | [], _ => none
  | (k, v) :: rest, key => if k = key then some v else getEntry rest key

/-- Replace the first entry for `key`, or append one (Python `d[key] = v`). -/
def setEntry {α : Type} : List (String × α) → String → α → List (String × α)
  | [], key, v => [(key, v)]
  | (k, w) :: rest, key, v =>
      if k = key then (key, v) :: rest else (k, w) :: setEntry rest key v

/-- Remove the entries for `key` (Python `del d[key]` on a unique-key dict). -/
def eraseEntry {α : Type} : List (String × α) → String → List (String × α)
  | [], _ => []
  | (k, v) :: rest, key =>
      if k = key then eraseEntry rest key else (k, v) :: eraseEntry rest key

/-- Well-formedness of a dict embedding: keys are unique. -/
def keysNodup {α : Type} (l : List (String × α)) : Prop :=
  (l.map Prod.fst).Nodup

/-- Python `int(...)` applied to a float: truncation toward zero. -/
def pyInt (q : ℚ) : ℤ := if 0 ≤ q then ⌊q⌋ else ⌈q⌉

/-! ### Session keys service: data model (`session_keys.py`, lines 25-65) -/

/-- `SessionKeyConfig` dataclass. `max_uses = none` is Python `None`. -/
structure SessionKeyConfig where
  target_programs : List Nat
  expiry_time : ℤ
  max_uses : Option ℤ := none
  allowed_instructions : Option (List String) := none
  rate_limit_per_minute : ℤ := 60
deriving Repr, DecidableEq

/-- `SessionTokenData` dataclass.  The `session_keypair` and
`token_account` fields are opaque external values (a keypair object and a
program-derived address) that the service logic never inspects; they are
embedded as bare numbers. -/
structure SessionTokenData where
  session_keypair : Nat := 0
  token_account : Nat := 0
  config : SessionKeyConfig
  created_at : ℤ
  uses_remaining : ℤ
  is_active : Bool
deriving Repr, DecidableEq

/-- The mutable state of `SessionKeysService`: the `sessions` dict and the
`rate_limit_cache` dict (token → list of use timestamps). -/
structure SessionState where
  sessions : List (String × SessionTokenData)
  rate_limit_cache : List (String × List ℚ)
deriving Repr, DecidableEq

/-- The exceptions raised by the session-keys service, one constructor per
distinct raise site reached by the embedded operations.
`invalidToken` = "Invalid session token", `inactive` = "Session is inactive",
`expired` = "Session has expired", `usageLimitExceeded` =
"Session usage limit exceeded" (the spec's Exhausted subtype),
`rateLimitExceeded` = "Rate limit exceeded", `noWallet` =
"No wallet available", `notFound` = "Session not found" (revoke path),
`sendFailed` = a failure propagated out of `_send_transaction`. -/
inductive SessionError where
  | invalidToken
  | inactive
  | expired
  | usageLimitExceeded
  | rateLimitExceeded
  | noWallet
  | notFound
  | sendFailed
deriving Repr, DecidableEq

/-- Observable external effects of `use_session`: `submitTx` is emitted
exactly when `_send_transaction` is invoked. -/
inductive SessionEvent where
  | submitTx
deriving Repr, DecidableEq

/-- `_validate_session` (lines 285-303).  Returns the validated record or
the raised error, together with the (possibly mutated) sessions dict:
the expiry and exhaustion checks set `is_active := false` before raising. -/
def validate_session (sessions : List (String × SessionTokenData)) (token : String)
    (now : ℚ) : Except SessionError SessionTokenData × List (String × SessionTokenData) :=
  match getEntry sessions token with
  | none => (.error .invalidToken, sessions)
  | some sd =>
    if sd.is_active = false then
      (.error .inactive, sessions)
    else if sd.config.expiry_time < pyInt now then
      (.error .expired, setEntry sessions token { sd with is_active := false })
    else if sd.uses_remaining = 0 then
      (.error .usageLimitExceeded, setEntry sessions token { sd with is_active := false })
    else
      (.ok sd, sessions)

/-- The lazy pruning of `_check_rate_limit` (lines 314-319): keep the
timestamps strictly younger than 60 seconds. -/
def prune (window : List ℚ) (now : ℚ) : List ℚ :=
  window.filter (fun ts => decide (now - ts < 60))

/-- `_check_rate_limit` (lines 305-325).  Prunes the token's window in
place (writing the pruned list back into the cache) and raises
`rateLimitExceeded` when the pruned window has already reached the
per-minute ceiling.  A missing session returns silently. -/
def check_rate_limit (st : SessionState) (token : String) (now : ℚ) :
    Except SessionError Unit × SessionState :=
  match getEntry st.sessions token with
  | none => (.ok (), st)
  | some sd =>
    let pruned := prune ((getEntry st.rate_limit_cache token).getD []) now
    let st' : SessionState :=
      { st with rate_limit_cache := setEntry st.rate_limit_cache token pruned }
    if sd.config.rate_limit_per_minute ≤ (pruned.length : ℤ) then
      (.error .rateLimitExceeded, st')
    else
      (.ok (), st')

/-- `_update_rate_limit_cache` (lines 327-332): append the current
timestamp to the token's window. -/
def update_rate_limit_cache (cache : List (String × List ℚ)) (token : String)
    (now : ℚ) : List (String × List ℚ) :=
  setEntry cache token ((getEntry cache token).getD [] ++ [now])

/-- `use_session` (lines 139-190).  `now` is the wall clock at the call;
`sendOk` records whether the external `_send_transaction` succeeds.  The
returned event list contains `submitTx` exactly when the submission was
attempted.  On success the usage decrement (lines 177-180) and the
rate-window append (line 183) run, in that order, after the submission. -/
def use_session (st : SessionState) (token : String) (now : ℚ) (sendOk : Bool) :
    Except SessionError String × SessionState × List SessionEvent :=
  match validate_session st.sessions token now with
  | (.error e, sessions') => (.error e, { st with sessions := sessions' }, [])
  | (.ok sd, sessions') =>
    let st1 : SessionState := { st with sessions := sessions' }
    match check_rate_limit st1 token now with
    | (.error e, st2) => (.error e, st2, [])
    | (.ok _, st2) =>
      if sendOk = false then
        (.error .sendFailed, st2, [.submitTx])
      else
        let sd2 :=
          if 0 < sd.uses_remaining then
            let u := sd.uses_remaining - 1
            { sd with uses_remaining := u,
                      is_active := if u = 0 then false else sd.is_active }
          else sd
        let st3 : SessionState := { st2 with sessions := setEntry st2.sessions token sd2 }
        let st4 : SessionState :=
          { st3 with rate_limit_cache := update_rate_limit_cache st3.rate_limit_cache token now }
        (.ok "sig", st4, [.submitTx])

/-- `revoke_session` (lines 192-235).  `hasWallet` records whether a
wallet is available; `sendOk` whether building the revoke instruction and
`_send_transaction` succeed (both run before any state mutation).  Only
after a successful submission is the credential marked inactive and the
entry deleted (lines 226-228); the rate-window cache is not touched. -/
def revoke_session (st : SessionState) (token : String) (hasWallet sendOk : Bool) :
    Except SessionError String × SessionState :=
  if hasWallet = false then
    (.error .noWallet, st)
  else
    match getEntry st.sessions token with
    | none => (.error .notFound, st)
    | some _ =>
      if sendOk = false then
        (.error .sendFailed, st)
      else
        (.ok "sig", { st with sessions := eraseEntry st.sessions token })

/-- Python `config.max_uses or -1` (line 130): `None` and the falsy `0`
both become the unlimited sentinel `-1`. -/
def pyOrNegOne : Option ℤ → ℤ
  | none => -1
  | some m => if m = 0 then -1 else m

/-- `create_session` (lines 75-137).  `token` stands for the freshly
generated random session token; the ledger account creation must succeed
(`sendOk`) before the credential is stored. -/
def create_session (st : SessionState) (token : String) (cfg : SessionKeyConfig)
    (now : ℤ) (hasWallet sendOk : Bool) :
    Except SessionError String × SessionState :=
  if hasWallet = false then
    (.error .noWallet, st)
  else if sendOk = false then
    (.error .sendFailed, st)
  else
    let sd : SessionTokenData :=
      { config := cfg, created_at := now,
        uses_remaining := pyOrNegOne cfg.max_uses, is_active := true }
    (.ok token, { st with sessions := setEntry st.sessions token sd })

/-- One pass of the `_auto_cleanup_sessions` sweep body (lines 498-515):
drop every session that is inactive or past expiry, then drop every
rate-window entry whose token no longer has a session. -/
def sweep (st : SessionState) (now : ℤ) : SessionState :=
  let sessions' := st.sessions.filter
    (fun e => e.2.is_active && !(decide (e.2.config.expiry_time < now)))
  { sessions := sessions',
    rate_limit_cache := st.rate_limit_cache.filter
      (fun e => decide (getEntry sessions' e.1 ≠ none)) }

/-- The operations an external caller can drive the service through. -/
inductive SessionOp where
  | useOp (token : String) (now : ℚ) (sendOk : Bool)
  | revokeOp (token : String) (hasWallet sendOk : Bool)
  | createOp (token : String) (cfg : SessionKeyConfig) (now : ℤ) (hasWallet sendOk : Bool)
  | sweepOp (now : ℤ)

/-- Whether an operation is a `create_session` call generating `token`. -/
def opCreatesToken : SessionOp → String → Bool
  | .createOp t _ _ _ _, token => t = token
  | _, _ => false

/-- State transition of one operation (return values discarded). -/
def applyOp (st : SessionState) : SessionOp → SessionState
  | .useOp t now sendOk => (use_session st t now sendOk).2.1
  | .revokeOp t hasW sendOk => (revoke_session st t hasW sendOk).2
  | .createOp t cfg now hasW sendOk => (create_session st t cfg now hasW sendOk).2
  | .sweepOp now => sweep st now

/-- State after a sequence of operations. -/
def applyOps (st : SessionState) (ops : List SessionOp) : SessionState :=
  ops.foldl applyOp st

/-! ### Jito bundles service: data model (`jito_bundles.py`, lines 25-86) -/

/-- `BundleResult` dataclass. -/
structure BundleResult where
  bundle_id : String
  transactions : List String
  status : String
  timestamp : ℤ
  block_height : Option ℤ := none
  confirmation_time : Option ℚ := none
deriving Repr, DecidableEq

/-- The relay's answer to one `getBundleStatuses` poll, as consumed by
`_wait_for_bundle_confirmation`: a reported `confirmed` status (with its
optional block height), a reported `failed` status, or anything else —
`_query_bundle_status_from_jito` returns `{'status': 'pending'}` for
missing results and non-200 responses, and any unrecognized status falls
through both branches of the loop body exactly like `pending`. -/
inductive RelayStatus where
  | confirmed (block_height : Option ℤ)
  | failed
  | pending
deriving Repr, DecidableEq

/-- The mutable state of `JitoBundlesService`: the pending-bundle dict,
the history list, and the `bundle_stats` counters. -/
structure JitoState where
  pending_bundles : List (String × BundleResult)
  bundle_history : List BundleResult
  total_bundles : ℤ := 0
  successful_bundles : ℤ := 0
  failed_bundles : ℤ := 0
deriving Repr, DecidableEq

/-- Errors surfaced by the bundle service.  `bundleSizeExceeded` is the
"Bundle size ... exceeds maximum" raise (a ValidationError in the spec's
taxonomy); `prepareFailed` stands for a blockhash-fetch or signing
failure inside `_prepare_bundle_transactions`; `relayHttpError` is the
non-200 `NetworkError`; `relayReportedError` the `'error'` field raise;
`finalAttemptFailed` the "Bundle confirmation timeout: e" raise from the
last attempt's exception handler; `confirmationTimeout` the plain
"Bundle confirmation timeout" raise after the retry loop. -/
inductive JitoError where
  | noWallet
  | bundleSizeExceeded
  | prepareFailed
  | relayHttpError
  | relayReportedError
  | finalAttemptFailed
  | confirmationTimeout
deriving Repr, DecidableEq

/-- Network interactions of `send_bundle`, in program order. -/
inductive NetEvent where
  | initClient
  | blockhashFetch
  | relayPost
  | statusQuery
deriving Repr, DecidableEq

/-- `JitoConfig()` defaults (lines 45-54); the service always constructs
the default config. -/
def jito_max_bundle_size : Nat := 5

/-- Overwrite the status field of the pending record for `id`, if any
(the Python code mutates the dict-held object in place). -/
def setStatus (pending : List (String × BundleResult)) (id : String) (s : String) :
    List (String × BundleResult) :=
  match getEntry pending id with
  | none => pending
  | some r => setEntry pending id { r with status := s }

/-- The retry loop of `_wait_for_bundle_confirmation` (lines 438-482).
`polls` holds one entry per remaining attempt: the relay's reported
status and the elapsed wall-clock time `time.time() - start_time` at that
attempt.  An empty `polls` is the loop falling through: the record (if
still pending) is marked `"timeout"` — but not removed — and the plain
timeout error is raised.  A `confirmed` poll moves the record to history;
a `failed` poll deletes it from pending and raises, which the attempt's
exception handler swallows unless this was the last attempt, in which
case it marks any still-pending record `"failed"` and raises the final
timeout error.  A missing pending record on a `confirmed` or `failed`
poll is the Python `KeyError`, handled by the same exception handler. -/
def waitAux (id : String) : List (RelayStatus × ℚ) → JitoState →
    Except JitoError BundleResult × JitoState
  | [], st =>
      (.error .confirmationTimeout,
        { st with pending_bundles := setStatus st.pending_bundles id "timeout" })
  | (s, elapsed) :: rest, st =>
    match s with
    | .pending => waitAux id rest st
    | .confirmed bh =>
      match getEntry st.pending_bundles id with
      | some r =>
        let r' := { r with status := "confirmed", confirmation_time := some elapsed,
                           block_height := bh }
        (.ok r',
          { st with pending_bundles := eraseEntry st.pending_bundles id,
                    bundle_history := st.bundle_history ++ [r'] })
      | none =>
        if rest.isEmpty then
          (.error .finalAttemptFailed,
            { st with pending_bundles := setStatus st.pending_bundles id "failed" })
        else waitAux id rest st
    | .failed =>
      match getEntry st.pending_bundles id with
      | some _ =>
        let st' : JitoState :=
          { st with pending_bundles := eraseEntry st.pending_bundles id }
        if rest.isEmpty then
          (.error .finalAttemptFailed,
            { st' with pending_bundles := setStatus st'.pending_bundles id "failed" })
        else waitAux id rest st'
      | none =>
        if rest.isEmpty then
          (.error .finalAttemptFailed,
            { st with pending_bundles := setStatus st.pending_bundles id "failed" })
        else waitAux id rest st

/-- `_update_bundle_stats` (lines 557-564). -/
def update_bundle_stats (st : JitoState) (r : BundleResult) : JitoState :=
  let st' : JitoState := { st with total_bundles := st.total_bundles + 1 }
  if r.status = "confirmed" then
    { st' with successful_bundles := st'.successful_bundles + 1 }
  else
    { st' with failed_bundles := st'.failed_bundles + 1 }

/-- `send_bundle` (lines 103-164).  The transactions are abstract handles
(only their count matters to the embedded control flow).  `prepareOk`
records whether the blockhash fetch and signing in
`_prepare_bundle_transactions` succeed; `submitRes` is the outcome of
`_submit_bundle_to_jito` (an error, or the relay-assigned bundle id);
`polls` feeds the confirmation loop; `timestamp` is `int(time.time())` at
record creation.  The surrounding `except` increments `failed_bundles`
on every raised error before re-raising.  The returned event list is the
network interactions performed, in order. -/
def send_bundle (st : JitoState) (hasWallet : Bool) (txs : List Nat)
    (prepareOk : Bool) (submitRes : Except JitoError String)
    (polls : List (RelayStatus × ℚ)) (timestamp : ℤ) :
    Except JitoError BundleResult × JitoState × List NetEvent :=
  if hasWallet = false then
    (.error .noWallet, { st with failed_bundles := st.failed_bundles + 1 }, [])
  else if jito_max_bundle_size < txs.length then
    (.error .bundleSizeExceeded, { st with failed_bundles := st.failed_bundles + 1 }, [])
  else if prepareOk = false then
    (.error .prepareFailed, { st with failed_bundles := st.failed_bundles + 1 },
      [.initClient, .blockhashFetch])
  else
    match submitRes with
    | .error e =>
      (.error e, { st with failed_bundles := st.failed_bundles + 1 },
        [.initClient, .blockhashFetch, .relayPost])
    | .ok bundle_id =>
      let r : BundleResult :=
        { bundle_id := bundle_id, transactions := [], status := "pending",
          timestamp := timestamp }
      let st1 : JitoState :=
        { st with pending_bundles := setEntry st.pending_bundles bundle_id r }
      let trace := [NetEvent.initClient, .blockhashFetch, .relayPost] ++
        (List.range polls.length).map (fun _ => NetEvent.statusQuery)
      match waitAux bundle_id polls st1 with
      | (.ok cr, st2) => (.ok cr, update_bundle_stats st2 cr, trace)
      | (.error e, st2) =>
        (.error e, { st2 with failed_bundles := st2.failed_bundles + 1 }, trace)

/-- `_group_instructions_optimally` (lines 508-521): contiguous chunks of
at most `max_instructions_per_tx = 3`, in order. -/
def group_instructions_optimally : List Nat → List (List Nat)
  | [] => []
  | l@(_ :: _) => l.take 3 :: group_instructions_optimally (l.drop 3)
termination_by l => l.length
decreasing_by simp_all [List.length_drop]; omega

/-- `_get_recent_prioritization_fees` (lines 539-555): the average of the
network's fee samples, or the fallback average 1000 when the query fails,
returns nothing, or there is no connection (`netFees = none`), or the
sample list is empty. -/
def get_recent_prioritization_fees (netFees : Option (List ℚ)) : ℚ :=
  match netFees with
  | some fees => if fees.length ≠ 0 then fees.sum / fees.length else 1000
  | none => 1000

/-- The fee-breakdown dictionary returned by `estimate_bundle_fee`. -/
structure FeeEstimate where
  base_fee : ℤ
  priority_fee : ℤ
  recommended_tip : ℤ
  total_estimated : ℤ
  priority_level : String
  transaction_count : Nat
  error : Option String := none
deriving Repr, DecidableEq

/-- `estimate_bundle_fee` (lines 304-357).  `netFees` feeds the
prioritization-fee query; `internalExc` is `some e` when anything inside
the `try` raises with message `e`, in which case the fallback estimate
carrying the `error` field is returned instead of raising. -/
def estimate_bundle_fee (transaction_count : Nat) (priority_level : String)
    (netFees : Option (List ℚ)) (internalExc : Option String) : FeeEstimate :=
  match internalExc with
  | some e =>
    { base_fee := 5000 * transaction_count, priority_fee := 2000,
      recommended_tip := 15000, total_estimated := 22000 * transaction_count,
      priority_level := priority_level, transaction_count := transaction_count,
      error := some e }
  | none =>
    let multiplier : ℚ :=
      (getEntry [("low", (1 : ℚ)), ("medium", 2), ("high", 5)] priority_level).getD 2
    let avg := get_recent_prioritization_fees netFees
    let base_total : ℤ := 5000 * transaction_count
    let priority_fee : ℤ := pyInt (avg * multiplier)
    let tip_amount : ℤ := max 10000 (priority_fee * 2)
    { base_fee := base_total, priority_fee := priority_fee,
      recommended_tip := tip_amount,
      total_estimated := base_total + priority_fee + tip_amount,
      priority_level := priority_level, transaction_count := transaction_count }

/-! ### Concrete sample states used by witnesses and counterexamples -/

/-- A config with a finite use budget of 1, expiring at time 1000. -/
def sampleConfig : SessionKeyConfig :=
  { target_programs := [], expiry_time := 1000, max_uses := some 1,
    rate_limit_per_minute := 60 }

/-- A live credential with one use remaining. -/
def sampleCredential : SessionTokenData :=
  { config := sampleConfig, created_at := 0, uses_remaining := 1, is_active := true }

/-- A one-credential service state keyed by token "t". -/
def sampleState : SessionState :=
  { sessions := [("t", sampleCredential)], rate_limit_cache := [] }

/-- A credential whose policy expiry (5) is already in the past. -/
def expiredCredential : SessionTokenData :=
  { config := { sampleConfig with expiry_time := 5 }, created_at := 0,
    uses_remaining := 1, is_active := true }

/-- A state holding only the expired credential. -/
def expiredState : SessionState :=
  { sessions := [("t", expiredCredential)], rate_limit_cache := [] }

/-- An unlimited-use credential rate-limited to 2 requests per minute. -/
def limitedCredential : SessionTokenData :=
  { config := { target_programs := [], expiry_time := 1000, max_uses := none,
                rate_limit_per_minute := 2 },
    created_at := 0, uses_remaining := -1, is_active := true }

/-- A state in which token "t" has already used its whole rate window. -/
def limitedState : SessionState :=
  { sessions := [("t", limitedCredential)], rate_limit_cache := [("t", [5, 6])] }

/-- A pending bundle record for bundle id "b". -/
def samplePending : BundleResult :=
  { bundle_id := "b", transactions := [], status := "pending", timestamp := 0 }

/-- A bundle-service state with one pending bundle "b". -/
def sampleJitoState : JitoState :=
  { pending_bundles := [("b", samplePending)], bundle_history := [] }

/-! ### Association-list (dict) lemmas -/

theorem getEntry_setEntry_self {α : Type} (l : List (String × α)) (k : String) (v : α) :
    getEntry (setEntry l k v) k = some v := by
  induction l with
  | nil => simp [setEntry, getEntry]
  | cons e rest ih =>
    by_cases h : e.1 = k
    · simp [setEntry, h, getEntry]
    · simp [setEntry, h, getEntry, ih]

theorem getEntry_setEntry_ne {α : Type} (l : List (String × α)) (k x : String) (v : α)
    (h : x ≠ k) : getEntry (setEntry l k v) x = getEntry l x := by
  have hkx : ¬ k = x := fun hh => h hh.symm
  induction l with
  | nil => simp [setEntry, getEntry, hkx]
  | cons e rest ih =>
    by_cases he : e.1 = k
    · have hex : ¬ e.1 = x := by rw [he]; exact hkx
      simp [setEntry, he, getEntry, hkx, hex]
    · simp only [setEntry, he, if_neg, getEntry]
      by_cases hex : e.1 = x
      · simp [hex]
      · simp [hex, ih]

theorem keysNodup_cons {α : Type} (e : String × α) (rest : List (String × α)) :
    keysNodup (e :: rest) ↔ e.1 ∉ rest.map Prod.fst ∧ keysNodup rest := by
  unfold keysNodup
  rw [List.map_cons, List.nodup_cons]

theorem getEntry_eraseEntry {α : Type} (l : List (String × α)) (k x : String) :
    getEntry (eraseEntry l k) x = if x = k then none else getEntry l x := by
  induction l with
  | nil => by_cases hx : x = k <;> simp [eraseEntry, getEntry, hx]
  | cons e rest ih =>
    by_cases he : e.1 = k
    · rw [eraseEntry, if_pos he, ih]
      by_cases hx : x = k
      · simp [hx]
      · have hex : ¬ e.1 = x := by rw [he]; intro hh; exact hx hh.symm
        simp [hx, getEntry, hex]
    · rw [eraseEntry, if_neg he, getEntry]
      by_cases hex : e.1 = x
      · have hx : ¬ x = k := by rw [← hex]; intro hh; exact he hh
        rw [if_pos hex, if_neg hx, getEntry, if_pos hex]
      · rw [if_neg hex, ih]
        by_cases hx : x = k
        · simp [hx]
        · simp [hx, getEntry, hex]

theorem getEntry_none_of_not_mem {α : Type} (l : List (String × α)) (x : String)
    (h : x ∉ l.map Prod.fst) : getEntry l x = none := by
  induction l with
  | nil => rfl
  | cons e rest ih =>
    rw [List.map_cons, List.mem_cons, not_or] at h
    have hex : ¬ e.1 = x := fun hh => h.1 hh.symm
    rw [getEntry, if_neg hex]
    exact ih h.2

theorem getEntry_filter_none {α : Type} (l : List (String × α)) (p : String × α → Bool)
    (x : String) (h : getEntry l x = none) : getEntry (l.filter p) x = none := by
  induction l with
  | nil => rfl
  | cons e rest ih =>
    rw [getEntry] at h
    by_cases hex : e.1 = x
    · rw [if_pos hex] at h; exact absurd h (by simp)
    · rw [if_neg hex] at h
      rw [List.filter_cons]
      by_cases hp : p e
      · rw [if_pos (by simp [hp]), getEntry, if_neg hex]
        exact ih h
      · rw [if_neg (by simp [hp])]
        exact ih h

theorem getEntry_filter_of_nodup {α : Type} (l : List (String × α)) (p : String × α → Bool)
    (x : String) (v w : α) (hnd : keysNodup l) (hget : getEntry l x = some v)
    (hfil : getEntry (l.filter p) x = some w) : w = v ∧ p (x, v) = true := by
  induction l with
  | nil => exact absurd hget (by simp [getEntry])
  | cons e rest ih =>
    have hnd2 := (keysNodup_cons e rest).mp hnd
    rw [getEntry] at hget
    rw [List.filter_cons] at hfil
    by_cases hex : e.1 = x
    · rw [if_pos hex] at hget
      have hev : e = (x, v) := by
        injection hget with hb
        exact Prod.ext hex hb
      have hrest : getEntry rest x = none :=
        getEntry_none_of_not_mem rest x (hex ▸ hnd2.1)
      by_cases hp : p e
      · rw [if_pos (by simp [hp]), getEntry, if_pos hex] at hfil
        injection hget with hgv
        injection hfil with hfw
        exact ⟨by rw [← hfw, hgv], by rw [← hev]; exact hp⟩
      · rw [if_neg (by simp [hp]), getEntry_filter_none rest p x hrest] at hfil
        exact absurd hfil (by simp)
    · rw [if_neg hex] at hget
      by_cases hp : p e
      · rw [if_pos (by simp [hp]), getEntry, if_neg hex] at hfil
        exact ih hnd2.2 hget hfil
      · rw [if_neg (by simp [hp])] at hfil
        exact ih hnd2.2 hget hfil

theorem mem_keys_setEntry {α : Type} (l : List (String × α)) (k x : String) (v : α) :
    x ∈ (setEntry l k v).map Prod.fst → x = k ∨ x ∈ l.map Prod.fst := by
  induction l with
  | nil =>
    intro h
    rw [setEntry] at h
    simp only [List.map_cons, List.map_nil, List.mem_singleton] at h
    exact .inl h
  | cons e rest ih =>
    intro h
    by_cases he : e.1 = k
    · rw [setEntry, if_pos he, List.map_cons, List.mem_cons] at h
      rcases h with h | h
      · exact .inl h
      · exact .inr (by rw [List.map_cons, List.mem_cons]; exact .inr h)
    · rw [setEntry, if_neg he, List.map_cons, List.mem_cons] at h
      rcases h with h | h
      · exact .inr (by rw [List.map_cons, List.mem_cons]; exact .inl h)
      · rcases ih h with h' | h'
        · exact .inl h'
        · exact .inr (by rw [List.map_cons, List.mem_cons]; exact .inr h')

theorem keysNodup_setEntry {α : Type} (l : List (String × α)) (k : String) (v : α)
    (h : keysNodup l) : keysNodup (setEntry l k v) := by
  induction l with
  | nil =>
    rw [setEntry]
    exact (keysNodup_cons (k, v) []).mpr ⟨by simp, by simp [keysNodup]⟩
  | cons e rest ih =>
    have hcons := (keysNodup_cons e rest).mp h
    by_cases he : e.1 = k
    · rw [setEntry, if_pos he]
      exact (keysNodup_cons (k, v) rest).mpr ⟨by simpa [← he] using hcons.1, hcons.2⟩
    · rw [setEntry, if_neg he]
      refine (keysNodup_cons e (setEntry rest k v)).mpr ⟨?_, ih hcons.2⟩
      intro hmem
      rcases mem_keys_setEntry rest k e.1 v hmem with h' | h'
      · exact he h'
      · exact hcons.1 h'

theorem eraseEntry_sublist_keys {α : Type} (l : List (String × α)) (k : String) :
    ((eraseEntry l k).map Prod.fst).Sublist (l.map Prod.fst) := by
  induction l with
  | nil => simp [eraseEntry]
  | cons e rest ih =>
    by_cases he : e.1 = k
    · rw [eraseEntry, if_pos he, List.map_cons]
      exact ih.trans (List.sublist_cons_self _ _)
    · rw [eraseEntry, if_neg he, List.map_cons, List.map_cons]
      exact ih.cons₂ e.1

theorem keysNodup_eraseEntry {α : Type} (l : List (String × α)) (k : String)
    (h : keysNodup l) : keysNodup (eraseEntry l k) :=
  List.Nodup.sublist (eraseEntry_sublist_keys l k) h

theorem keysNodup_filter {α : Type} (l : List (String × α)) (p : String × α → Bool)
    (h : keysNodup l) : keysNodup (l.filter p) := by
  have hs : ((l.filter p).map Prod.fst).Sublist (l.map Prod.fst) :=
    (List.filter_sublist l).map Prod.fst
  exact List.Nodup.sublist hs h

/-! ### Grouping lemmas -/

theorem gio_eq_nil : group_instructions_optimally [] = [] := by
  rw [group_instructions_optimally]

theorem gio_eq_cons (a : Nat) (t : List Nat) :
    group_instructions_optimally (a :: t) =
      (a :: t).take 3 :: group_instructions_optimally ((a :: t).drop 3) := by
  rw [group_instructions_optimally]

theorem gio_join (l : List Nat) : (group_instructions_optimally l).flatten = l := by
  induction l using group_instructions_optimally.induct with
  | case1 => rw [gio_eq_nil]; rfl
  | case2 a t ih => rw [gio_eq_cons, List.flatten_cons, ih, List.take_append_drop]

theorem gio_length (l : List Nat) :
    (group_instructions_optimally l).length = (l.length + 2) / 3 := by
  induction l using group_instructions_optimally.induct with
  | case1 => rw [gio_eq_nil]; rfl
  | case2 a t ih =>
    rw [gio_eq_cons, List.length_cons, ih, List.length_drop]
    simp only [List.length_cons]
    omega

theorem gio_dropLast (l : List Nat) :
    ∀ g ∈ (group_instructions_optimally l).dropLast, g.length = 3 := by
  induction l using group_instructions_optimally.induct with
  | case1 => rw [gio_eq_nil]; intro g hg; exact absurd hg (by simp)
  | case2 a t ih =>
    rw [gio_eq_cons]
    cases hrec : group_instructions_optimally ((a :: t).drop 3) with
    | nil => intro g hg; exact absurd hg (by simp)
    | cons g0 gs =>
      rw [← hrec]
      have hne : group_instructions_optimally ((a :: t).drop 3) ≠ [] := by
        rw [hrec]; exact List.cons_ne_nil g0 gs
      have hd : (a :: t).drop 3 ≠ [] := by
        intro h0
        rw [h0, gio_eq_nil] at hne
        exact hne rfl
      have hlen : 3 < (a :: t).length := by
        by_contra hle
        push_neg at hle
        exact hd (List.drop_eq_nil_of_le hle)
      rw [List.dropLast_cons_of_ne_nil hne]
      intro g hg
      rcases List.mem_cons.mp hg with hg | hg
      · rw [hg, List.length_take]
        omega
      · exact ih g hg

/-! ### Session-service path equations -/

theorem validate_session_ok {sessions : List (String × SessionTokenData)} {t : String}
    {now : ℚ} {sd : SessionTokenData} (hget : getEntry sessions t = some sd)
    (hact : sd.is_active = true) (hexp : ¬ sd.config.expiry_time < pyInt now)
    (huse : sd.uses_remaining ≠ 0) :
    validate_session sessions t now = (.ok sd, sessions) := by
  unfold validate_session
  rw [hget]
  simp [hact, hexp, huse]

theorem validate_session_inactive {sessions : List (String × SessionTokenData)} {t : String}
    {now : ℚ} {sd : SessionTokenData} (hget : getEntry sessions t = some sd)
    (hact : sd.is_active = false) :
    validate_session sessions t now = (.error .inactive, sessions) := by
  unfold validate_session
  rw [hget]
  simp [hact]

theorem validate_session_expired {sessions : List (String × SessionTokenData)} {t : String}
    {now : ℚ} {sd : SessionTokenData} (hget : getEntry sessions t = some sd)
    (hact : sd.is_active = true) (hexp : sd.config.expiry_time < pyInt now) :
    validate_session sessions t now =
      (.error .expired, setEntry sessions t { sd with is_active := false }) := by
  unfold validate_session
  rw [hget]
  simp [hact, hexp]

theorem use_session_fail_eq {st : SessionState} {t : String} {now : ℚ}
    {sd : SessionTokenData} (hget : getEntry st.sessions t = some sd)
    (hact : sd.is_active = true) (hexp : ¬ sd.config.expiry_time < pyInt now)
    (huse : sd.uses_remaining ≠ 0)
    (hrate : ¬ sd.config.rate_limit_per_minute ≤
      ((prune ((getEntry st.rate_limit_cache t).getD []) now).length : ℤ)) :
    use_session st t now false =
      (.error .sendFailed,
        { st with
            rate_limit_cache :=
              setEntry st.rate_limit_cache t
                (prune ((getEntry st.rate_limit_cache t).getD []) now) },
        [.submitTx]) := by
  have hv := validate_session_ok hget hact hexp huse
  unfold use_session check_rate_limit
  rw [hv]
  simp [hget, hrate]

theorem use_session_success_eq {st : SessionState} {t : String} {now : ℚ}
    {sd : SessionTokenData} (hget : getEntry st.sessions t = some sd)
    (hact : sd.is_active = true) (hexp : ¬ sd.config.expiry_time < pyInt now)
    (huse : sd.uses_remaining ≠ 0)
    (hrate : ¬ sd.config.rate_limit_per_minute ≤
      ((prune ((getEntry st.rate_limit_cache t).getD []) now).length : ℤ)) :
    use_session st t now true =
      (.ok "sig",
        { sessions := setEntry st.sessions t
            (if 0 < sd.uses_remaining then
              { sd with uses_remaining := sd.uses_remaining - 1,
                        is_active := if sd.uses_remaining - 1 = 0 then false
                          else sd.is_active }
             else sd),
          rate_limit_cache :=
            setEntry
              (setEntry st.rate_limit_cache t
                (prune ((getEntry st.rate_limit_cache t).getD []) now)) t
              (prune ((getEntry st.rate_limit_cache t).getD []) now ++ [now]) },
        [.submitTx]) := by
  have hv := validate_session_ok hget hact hexp huse
  unfold use_session check_rate_limit update_rate_limit_cache
  rw [hv]
  simp [hget, hrate, getEntry_setEntry_self]

theorem use_session_ratelimited_eq {st : SessionState} {t : String} {now : ℚ}
    {sd : SessionTokenData} (hget : getEntry st.sessions t = some sd)
    (hact : sd.is_active = true) (hexp : ¬ sd.config.expiry_time < pyInt now)
    (huse : sd.uses_remaining ≠ 0)
    (hceil : sd.config.rate_limit_per_minute ≤
      ((prune ((getEntry st.rate_limit_cache t).getD []) now).length : ℤ))
    (sendOk : Bool) :
    use_session st t now sendOk =
      (.error .rateLimitExceeded,
        { st with
            rate_limit_cache :=
              setEntry st.rate_limit_cache t
                (prune ((getEntry st.rate_limit_cache t).getD []) now) },
        []) := by
  have hv := validate_session_ok hget hact hexp huse
  unfold use_session check_rate_limit
  rw [hv]
  simp [hget, hceil]

/-! ### Claim theorems -/

/-- Claim C7 (confirmed): `_group_instructions_optimally` returns exactly
`ceil(L/3)` groups (written `(L + 3 - 1) / 3` in natural division), whose
in-order concatenation is the original instruction sequence, and every
group except possibly the last has exactly 3 elements. -/
theorem claim_C7 (l : List Nat) :
    (group_instructions_optimally l).length = (l.length + 3 - 1) / 3 ∧
    (group_instructions_optimally l).flatten = l ∧
    ∀ g ∈ (group_instructions_optimally l).dropLast, g.length = 3 :=
  ⟨by rw [gio_length]; omega, gio_join l, gio_dropLast l⟩


/-- Witness for C7 at the concrete sequence `[1,2,3,4]`. -/
theorem claim_C7_witness :
    (group_instructions_optimally [1,2,3,4]).length = (4 + 3 - 1) / 3 ∧
    (group_instructions_optimally [1,2,3,4]).flatten = [1,2,3,4] ∧
    [1,2,3] ∈ (group_instructions_optimally [1,2,3,4]).dropLast ∧
    ∀ g ∈ (group_instructions_optimally [1,2,3,4]).dropLast, g.length = 3 := by
  have h := claim_C7 [1,2,3,4]
  refine ⟨h.1, h.2.1, ?_, h.2.2⟩
  simp [gio_eq_cons, gio_eq_nil]

/-- Claim C8 (confirmed): with a wallet configured, a transaction list
longer than the configured maximum bundle size (5) makes `send_bundle`
fail with the bundle-size `ValidationError`, and the trace of network
interactions is empty: the size check precedes any HTTP-client
initialization, blockhash fetch, or relay request. -/
theorem claim_C8 (st : JitoState) (txs : List Nat) (prepareOk : Bool)
    (submitRes : Except JitoError String) (polls : List (RelayStatus × ℚ)) (ts : ℤ)
    (h : jito_max_bundle_size < txs.length) :
    send_bundle st true txs prepareOk submitRes polls ts =
      (.error .bundleSizeExceeded,
        { st with failed_bundles := st.failed_bundles + 1 }, []) := by
  unfold send_bundle
  simp [h]

/-- Witness for C8: six transactions against the default maximum of 5. -/
theorem claim_C8_witness :
    jito_max_bundle_size < ([1,2,3,4,5,6] : List Nat).length ∧
    send_bundle ⟨[], [], 0, 0, 0⟩ true [1,2,3,4,5,6] true (.ok "b") [] 0 =
      (.error .bundleSizeExceeded, ⟨[], [], 0, 0, 1⟩, []) :=
  ⟨by decide, claim_C8 ⟨[], [], 0, 0, 0⟩ [1,2,3,4,5,6] true (.ok "b") [] 0 (by decide)⟩

/-- Claim C9 (confirmed): `estimate_bundle_fee` is total (the embedding
returns a `FeeEstimate` for every input, mirroring the catch-all handler):
for every transaction count and priority-level string it returns a
breakdown carrying the requested count and level; an internal error
yields the fallback estimate carrying that error in the `error` field
instead of raising; otherwise the priority fee uses multiplier 1 for
"low", 2 for "medium", 5 for "high", and the medium multiplier 2 for any
unrecognized level. -/
theorem claim_C9 (n : Nat) (level : String) (netFees : Option (List ℚ))
    (exc : Option String) :
    (estimate_bundle_fee n level netFees exc).transaction_count = n ∧
    (estimate_bundle_fee n level netFees exc).priority_level = level ∧
    (∀ e, exc = some e → (estimate_bundle_fee n level netFees exc).error = some e) ∧
    (exc = none →
      (estimate_bundle_fee n level netFees exc).error = none ∧
      (estimate_bundle_fee n level netFees exc).priority_fee =
        pyInt (get_recent_prioritization_fees netFees *
          (if level = "low" then 1 else if level = "medium" then 2
           else if level = "high" then 5 else 2))) := by
  cases exc with
  | some e =>
    refine ⟨rfl, rfl, ?_, ?_⟩
    · intro e' he
      injection he with h
      subst h
      rfl
    · intro h
      exact Option.noConfusion h
  | none =>
    refine ⟨rfl, rfl, ?_, ?_⟩
    · intro e' he
      exact Option.noConfusion he
    intro _
    refine ⟨rfl, ?_⟩
    show pyInt (get_recent_prioritization_fees netFees *
        (getEntry [("low", (1 : ℚ)), ("medium", 2), ("high", 5)] level).getD 2) = _
    by_cases h1 : level = "low"
    · subst h1; rfl
    · by_cases h2 : level = "medium"
      · subst h2; rfl
      · by_cases h3 : level = "high"
        · subst h3; rfl
        · have e1 : ¬ "low" = level := fun hh => h1 hh.symm
          have e2 : ¬ "medium" = level := fun hh => h2 hh.symm
          have e3 : ¬ "high" = level := fun hh => h3 hh.symm
          simp [getEntry, e1, e2, e3, h1, h2, h3]

/-- Witness for C9: an unrecognized priority level with no network data
and no internal error falls back to the medium multiplier 2. -/
theorem claim_C9_witness :
    (estimate_bundle_fee 2 "turbo" none none).error = none ∧
    (estimate_bundle_fee 2 "turbo" none none).priority_fee =
      pyInt (get_recent_prioritization_fees none * 2) := by
  have h := (claim_C9 2 "turbo" none none).2.2.2 rfl
  exact ⟨h.1, by simpa using h.2⟩

/-- Claim C10 (confirmed): `revoke_session` removes the credential only
after `_send_transaction` has succeeded.  For a known token with a
configured wallet: a failed submission raises and leaves the whole
service state (sessions table included) unchanged; a successful
submission returns the signature and deletes the entry from the live
table, leaving the rate-window cache untouched. -/
theorem claim_C10 (st : SessionState) (t : String) (sd : SessionTokenData)
    (hget : getEntry st.sessions t = some sd) :
    revoke_session st t true false = (.error .sendFailed, st) ∧
    (revoke_session st t true true).1 = .ok "sig" ∧
    (revoke_session st t true true).2.sessions = eraseEntry st.sessions t ∧
    getEntry (revoke_session st t true true).2.sessions t = none ∧
    (revoke_session st t true true).2.rate_limit_cache = st.rate_limit_cache := by
  unfold revoke_session
  rw [hget]
  refine ⟨rfl, rfl, rfl, ?_, rfl⟩
  show getEntry (eraseEntry st.sessions t) t = none
  rw [getEntry_eraseEntry, if_pos rfl]

/-- Witness for C10 at the one-credential sample state. -/
theorem claim_C10_witness :
    getEntry sampleState.sessions "t" = some sampleCredential ∧
    revoke_session sampleState "t" true false = (.error .sendFailed, sampleState) := by
  refine ⟨by decide, ?_⟩
  exact (claim_C10 sampleState "t" sampleCredential (by decide)).1

/-- Claim C2 (confirmed): for a credential that passes validation and the
rate check, a failed `_send_transaction` raises and consumes nothing —
`uses_remaining` (indeed the whole sessions table) is unchanged and the
rate window holds no new timestamp (it is exactly the pruned old window,
every element of which was already recorded); only a successful
submission decrements the use counter and appends the timestamp. -/
theorem claim_C2 (st : SessionState) (t : String) (now : ℚ) (sd : SessionTokenData)
    (hget : getEntry st.sessions t = some sd)
    (hact : sd.is_active = true)
    (hexp : ¬ sd.config.expiry_time < pyInt now)
    (huse : sd.uses_remaining ≠ 0)
    (hrate : ¬ sd.config.rate_limit_per_minute ≤
      ((prune ((getEntry st.rate_limit_cache t).getD []) now).length : ℤ)) :
    ((use_session st t now false).1 = .error .sendFailed ∧
     (use_session st t now false).2.1.sessions = st.sessions ∧
     (use_session st t now false).2.1.rate_limit_cache =
       setEntry st.rate_limit_cache t
         (prune ((getEntry st.rate_limit_cache t).getD []) now) ∧
     ∀ ts ∈ (getEntry (use_session st t now false).2.1.rate_limit_cache t).getD [],
       ts ∈ (getEntry st.rate_limit_cache t).getD []) ∧
    ((use_session st t now true).1 = .ok "sig" ∧
     getEntry (use_session st t now true).2.1.sessions t =
       some (if 0 < sd.uses_remaining then
          { sd with uses_remaining := sd.uses_remaining - 1,
                    is_active := if sd.uses_remaining - 1 = 0 then false
                      else sd.is_active }
        else sd) ∧
     getEntry (use_session st t now true).2.1.rate_limit_cache t =
       some (prune ((getEntry st.rate_limit_cache t).getD []) now ++ [now])) := by
  have hf := use_session_fail_eq hget hact hexp huse hrate
  have hs := use_session_success_eq hget hact hexp huse hrate
  constructor
  · rw [hf]
    refine ⟨rfl, rfl, rfl, ?_⟩
    intro ts hts
    show ts ∈ (getEntry st.rate_limit_cache t).getD []
    have hmem : ts ∈ prune ((getEntry st.rate_limit_cache t).getD []) now := by
      have hg : getEntry
          (setEntry st.rate_limit_cache t
            (prune ((getEntry st.rate_limit_cache t).getD []) now)) t =
          some (prune ((getEntry st.rate_limit_cache t).getD []) now) :=
        getEntry_setEntry_self _ _ _
      simpa [hg] using hts
    exact (List.mem_filter.mp hmem).1
  · rw [hs]
    exact ⟨rfl, getEntry_setEntry_self _ _ _, getEntry_setEntry_self _ _ _⟩

/-- Witness for C2 at the sample one-credential state at time 10. -/
theorem claim_C2_witness :
    (use_session sampleState "t" 10 false).1 = .error .sendFailed ∧
    (use_session sampleState "t" 10 false).2.1.sessions = sampleState.sessions ∧
    (use_session sampleState "t" 10 true).1 = .ok "sig" := by
  have h := claim_C2 sampleState "t" 10 sampleCredential (by decide) rfl
    (by norm_num [sampleCredential, sampleConfig, pyInt])
    (by norm_num [sampleCredential])
    (by norm_num [sampleCredential, sampleConfig, sampleState, getEntry, prune])
  exact ⟨h.1.1, h.1.2.1, h.2.1⟩

/-- Claim C4 (confirmed): (i) when the recorded window already holds at
least `rate_limit_per_minute` timestamps that all lie within the last 60
seconds, `use_session` fails with the rate-limit error regardless of the
submission outcome and performs no submission (empty event trace);
(ii) when lazy pruning leaves the window strictly below the ceiling, the
call passes the rate check (and succeeds when the submission succeeds);
(iii) pruning keeps exactly the timestamps strictly younger than 60
seconds, so a timestamp 60 or more seconds old is discarded. -/
theorem claim_C4 :
    (∀ (st : SessionState) (t : String) (now : ℚ) (sd : SessionTokenData) (sendOk : Bool),
      getEntry st.sessions t = some sd →
      sd.is_active = true →
      ¬ sd.config.expiry_time < pyInt now →
      sd.uses_remaining ≠ 0 →
      (∀ ts ∈ (getEntry st.rate_limit_cache t).getD [], now - ts < 60) →
      sd.config.rate_limit_per_minute ≤
        (((getEntry st.rate_limit_cache t).getD []).length : ℤ) →
      (use_session st t now sendOk).1 = .error .rateLimitExceeded ∧
      (use_session st t now sendOk).2.2 = []) ∧
    (∀ (st : SessionState) (t : String) (now : ℚ) (sd : SessionTokenData),
      getEntry st.sessions t = some sd →
      sd.is_active = true →
      ¬ sd.config.expiry_time < pyInt now →
      sd.uses_remaining ≠ 0 →
      ¬ sd.config.rate_limit_per_minute ≤
        ((prune ((getEntry st.rate_limit_cache t).getD []) now).length : ℤ) →
      (use_session st t now true).1 = .ok "sig") ∧
    (∀ (window : List ℚ) (now ts : ℚ),
      ts ∈ prune window now ↔ ts ∈ window ∧ now - ts < 60) := by
  refine ⟨?_, ?_, ?_⟩
  · intro st t now sd sendOk hget hact hexp huse hin hceil
    have hall : prune ((getEntry st.rate_limit_cache t).getD []) now =
        (getEntry st.rate_limit_cache t).getD [] := by
      apply List.filter_eq_self.mpr
      intro ts hts
      simpa using hin ts hts
    have hceil' : sd.config.rate_limit_per_minute ≤
        ((prune ((getEntry st.rate_limit_cache t).getD []) now).length : ℤ) := by
      rw [hall]; exact hceil
    rw [use_session_ratelimited_eq hget hact hexp huse hceil' sendOk]
    exact ⟨rfl, rfl⟩
  · intro st t now sd hget hact hexp huse hrate
    rw [use_session_success_eq hget hact hexp huse hrate]
  · intro window now ts
    constructor
    · intro h
      exact ⟨(List.mem_filter.mp h).1, by simpa using (List.mem_filter.mp h).2⟩
    · intro h
      exact List.mem_filter.mpr ⟨h.1, by simpa using h.2⟩

/-- Witness for C4: at `limitedState` (ceiling 2, window `[5, 6]`) the
third call at time 10 is rate-limited with no submission; at time 66 the
window is fully pruned and the call succeeds. -/
theorem claim_C4_witness :
    ((use_session limitedState "t" 10 true).1 = .error .rateLimitExceeded ∧
     (use_session limitedState "t" 10 true).2.2 = []) ∧
    (use_session limitedState "t" 66 true).1 = .ok "sig" ∧
    ((5 : ℚ) ∈ prune [5, 6] 10 ↔ (5 : ℚ) ∈ [(5 : ℚ), 6] ∧ (10 : ℚ) - 5 < 60) := by
  refine ⟨claim_C4.1 limitedState "t" 10 limitedCredential true (by decide) rfl
      (by norm_num [limitedCredential, pyInt])
      (by norm_num [limitedCredential])
      (by intro ts hts
          simp [limitedState, getEntry] at hts
          rcases hts with rfl | rfl <;> norm_num)
      (by norm_num [limitedState, limitedCredential, getEntry]), ?_, ?_⟩
  · exact claim_C4.2.1 limitedState "t" 66 limitedCredential (by decide) rfl
      (by norm_num [limitedCredential, pyInt])
      (by norm_num [limitedCredential])
      (by norm_num [limitedState, limitedCredential, getEntry, prune, List.filter])
  · exact claim_C4.2.2 [5, 6] 10 5

/-- Claim C5 (confirmed): a stored, still-active credential whose policy
expiry lies strictly in the past fails its very first `use_session` call
with the `expired` error — this is the lazy use-time check inside
`_validate_session`, no sweep is involved — and as a side effect the
stored credential's `is_active` is set to false; no submission happens. -/
theorem claim_C5 (st : SessionState) (t : String) (now : ℚ) (sendOk : Bool)
    (sd : SessionTokenData)
    (hget : getEntry st.sessions t = some sd)
    (hact : sd.is_active = true)
    (hexp : sd.config.expiry_time < pyInt now) :
    (use_session st t now sendOk).1 = .error .expired ∧
    getEntry (use_session st t now sendOk).2.1.sessions t =
      some { sd with is_active := false } ∧
    (use_session st t now sendOk).2.2 = [] := by
  have hv := validate_session_expired hget hact hexp
  unfold use_session
  rw [hv]
  refine ⟨rfl, ?_, rfl⟩
  show getEntry (setEntry st.sessions t { sd with is_active := false }) t =
    some { sd with is_active := false }
  exact getEntry_setEntry_self _ _ _

/-- Witness for C5: the expired sample credential (expiry 5) fails at
time 10 and is flagged inactive. -/
theorem claim_C5_witness :
    (use_session expiredState "t" 10 true).1 = .error .expired ∧
    getEntry (use_session expiredState "t" 10 true).2.1.sessions "t" =
      some { expiredCredential with is_active := false } ∧
    (use_session expiredState "t" 10 true).2.2 = [] :=
  claim_C5 expiredState "t" 10 true expiredCredential (by decide) rfl
    (by norm_num [expiredCredential, sampleConfig, pyInt])

/-- Claim C3 (code-bug evidence): with `max_uses = 1` the first
`use_session` call succeeds and leaves `uses_remaining = 0` and
`is_active = false`, but the second call then fails with the `inactive`
error ("Session is inactive") rather than the exhaustion error
("Session usage limit exceeded"): because `use_session` deactivates the
credential when the counter reaches 0, `_validate_session`'s is-active
check fires before its `uses_remaining == 0` check can ever report
exhaustion.  The repository's own test `test_session_usage_exhaustion`
expects the exhaustion message on this exact scenario. -/
theorem claim_C3_bug :
    (use_session sampleState "t" 10 true).1 = .ok "sig" ∧
    getEntry (use_session sampleState "t" 10 true).2.1.sessions "t" =
      some { sampleCredential with uses_remaining := 0, is_active := false } ∧
    (use_session (use_session sampleState "t" 10 true).2.1 "t" 11 true).1 =
      .error .inactive ∧
    (use_session (use_session sampleState "t" 10 true).2.1 "t" 11 true).1 ≠
      .error .usageLimitExceeded := by
  have hget : getEntry sampleState.sessions "t" = some sampleCredential := by decide
  have h1 := @use_session_success_eq sampleState "t" 10 sampleCredential hget rfl
    (by norm_num [sampleCredential, sampleConfig, pyInt])
    (by norm_num [sampleCredential])
    (by norm_num [sampleCredential, sampleConfig, sampleState, getEntry, prune])
  have hsd2 : (if 0 < sampleCredential.uses_remaining then
      { sampleCredential with uses_remaining := sampleCredential.uses_remaining - 1,
                              is_active :=
                                if sampleCredential.uses_remaining - 1 = 0 then false
                                else sampleCredential.is_active }
      else sampleCredential) =
      { sampleCredential with uses_remaining := 0, is_active := false } := by
    norm_num [sampleCredential]
  rw [hsd2] at h1
  have hget2 : getEntry (use_session sampleState "t" 10 true).2.1.sessions "t" =
      some { sampleCredential with uses_remaining := 0, is_active := false } := by
    rw [h1]
    exact getEntry_setEntry_self _ _ _
  have huse2 : ∀ (S : SessionState),
      getEntry S.sessions "t" =
        some { sampleCredential with uses_remaining := 0, is_active := false } →
      (use_session S "t" 11 true).1 = .error .inactive := by
    intro S hS
    have hv := @validate_session_inactive S.sessions "t" 11 _ hS rfl
    unfold use_session
    rw [hv]
  refine ⟨by rw [h1], hget2, huse2 _ hget2, ?_⟩
  rw [huse2 _ hget2]
  simp

/-! ### Confirmation-loop lemmas -/

theorem setStatus_absent {pending : List (String × BundleResult)} {id : String}
    (s : String) (h : getEntry pending id = none) : setStatus pending id s = pending := by
  unfold setStatus
  rw [h]

theorem getEntry_setStatus_self {pending : List (String × BundleResult)} {id : String}
    {r : BundleResult} (s : String) (h : getEntry pending id = some r) :
    getEntry (setStatus pending id s) id = some { r with status := s } := by
  unfold setStatus
  rw [h]
  exact getEntry_setEntry_self _ _ _

theorem waitAux_preserves_absent (id : String) (polls : List (RelayStatus × ℚ))
    (st : JitoState) (h : getEntry st.pending_bundles id = none) :
    getEntry (waitAux id polls st).2.pending_bundles id = none := by
  induction polls generalizing st with
  | nil =>
    rw [waitAux]
    show getEntry (setStatus st.pending_bundles id "timeout") id = none
    rw [setStatus_absent _ h]
    exact h
  | cons p rest ih =>
    obtain ⟨s, q⟩ := p
    cases s with
    | pending =>
      rw [waitAux]
      exact ih st h
    | confirmed bh =>
      rw [waitAux, h]
      cases rest with
      | nil =>
        show getEntry (setStatus st.pending_bundles id "failed") id = none
        rw [setStatus_absent _ h]
        exact h
      | cons p' rest' =>
        show getEntry (waitAux id (p' :: rest') st).2.pending_bundles id = none
        exact ih st h
    | failed =>
      rw [waitAux, h]
      cases rest with
      | nil =>
        show getEntry (setStatus st.pending_bundles id "failed") id = none
        rw [setStatus_absent _ h]
        exact h
      | cons p' rest' =>
        show getEntry (waitAux id (p' :: rest') st).2.pending_bundles id = none
        exact ih st h

theorem waitAux_ok (id : String) (polls : List (RelayStatus × ℚ)) (st : JitoState)
    (r : BundleResult) (h : (waitAux id polls st).1 = .ok r) :
    getEntry (waitAux id polls st).2.pending_bundles id = none ∧
    (waitAux id polls st).2.bundle_history = st.bundle_history ++ [r] := by
  induction polls generalizing st with
  | nil =>
    rw [waitAux] at h
    exact absurd h (by simp)
  | cons p rest ih =>
    obtain ⟨s, q⟩ := p
    cases s with
    | pending =>
      rw [waitAux] at h ⊢
      exact ih st h
    | confirmed bh =>
      rw [waitAux] at h ⊢
      cases hg : getEntry st.pending_bundles id with
      | some r0 =>
        rw [hg] at h
        have h2 : (Except.ok { r0 with status := "confirmed",
                                       confirmation_time := some q,
                                       block_height := bh } :
            Except JitoError BundleResult) = .ok r := h
        have hr : ({ r0 with status := "confirmed", confirmation_time := some q,
                             block_height := bh } : BundleResult) = r := by
          injection h2
        refine ⟨?_, ?_⟩
        · show getEntry (eraseEntry st.pending_bundles id) id = none
          rw [getEntry_eraseEntry, if_pos rfl]
        · show st.bundle_history ++ [{ r0 with status := "confirmed",
                                               confirmation_time := some q,
                                               block_height := bh }] =
            st.bundle_history ++ [r]
          rw [hr]
      | none =>
        rw [hg] at h
        cases rest with
        | nil => exact absurd h (by simp)
        | cons p' rest' =>
          have h' : (waitAux id (p' :: rest') st).1 = .ok r := h
          show getEntry (waitAux id (p' :: rest') st).2.pending_bundles id = none ∧
            (waitAux id (p' :: rest') st).2.bundle_history = st.bundle_history ++ [r]
          exact ih st h'
    | failed =>
      rw [waitAux] at h ⊢
      cases hg : getEntry st.pending_bundles id with
      | some r0 =>
        rw [hg] at h
        cases rest with
        | nil => exact absurd h (by simp)
        | cons p' rest' =>
          have h' : (waitAux id (p' :: rest')
              { st with pending_bundles := eraseEntry st.pending_bundles id }).1 =
              .ok r := h
          exact ih { st with pending_bundles := eraseEntry st.pending_bundles id } h'
      | none =>
        rw [hg] at h
        cases rest with
        | nil => exact absurd h (by simp)
        | cons p' rest' =>
          have h' : (waitAux id (p' :: rest') st).1 = .ok r := h
          exact ih st h'

theorem waitAux_error_history (id : String) (polls : List (RelayStatus × ℚ))
    (st : JitoState) (e : JitoError) (h : (waitAux id polls st).1 = .error e) :
    (waitAux id polls st).2.bundle_history = st.bundle_history := by
  induction polls generalizing st with
  | nil => rfl
  | cons p rest ih =>
    obtain ⟨s, q⟩ := p
    cases s with
    | pending =>
      rw [waitAux] at h ⊢
      exact ih st h
    | confirmed bh =>
      rw [waitAux] at h ⊢
      cases hg : getEntry st.pending_bundles id with
      | some r0 =>
        rw [hg] at h
        exact absurd h (by simp)
      | none =>
        rw [hg] at h
        cases rest with
        | nil => rfl
        | cons p' rest' =>
          have h' : (waitAux id (p' :: rest') st).1 = .error e := h
          exact ih st h'
    | failed =>
      rw [waitAux] at h ⊢
      cases hg : getEntry st.pending_bundles id with
      | some r0 =>
        rw [hg] at h
        cases rest with
        | nil => rfl
        | cons p' rest' =>
          have h' : (waitAux id (p' :: rest')
              { st with pending_bundles := eraseEntry st.pending_bundles id }).1 =
              .error e := h
          exact ih { st with pending_bundles := eraseEntry st.pending_bundles id } h'
      | none =>
        rw [hg] at h
        cases rest with
        | nil => rfl
        | cons p' rest' =>
          have h' : (waitAux id (p' :: rest') st).1 = .error e := h
          exact ih st h'

theorem waitAux_all_pending (id : String) (polls : List (RelayStatus × ℚ))
    (st : JitoState) (r : BundleResult)
    (hall : ∀ p ∈ polls, p.1 = RelayStatus.pending)
    (hget : getEntry st.pending_bundles id = some r) :
    (waitAux id polls st).1 = .error .confirmationTimeout ∧
    getEntry (waitAux id polls st).2.pending_bundles id =
      some { r with status := "timeout" } := by
  induction polls generalizing st with
  | nil =>
    rw [waitAux]
    exact ⟨rfl, getEntry_setStatus_self _ hget⟩
  | cons p rest ih =>
    obtain ⟨s, q⟩ := p
    have hs : s = RelayStatus.pending := hall (s, q) (List.mem_cons_self _ _)
    subst hs
    rw [waitAux]
    exact ih st (fun p hp => hall p (List.mem_cons_of_mem _ hp)) hget

theorem waitAux_failed_head (id : String) (q : ℚ) (rest : List (RelayStatus × ℚ))
    (st : JitoState) (r : BundleResult)
    (hget : getEntry st.pending_bundles id = some r) :
    getEntry (waitAux id ((RelayStatus.failed, q) :: rest) st).2.pending_bundles id =
      none := by
  have herase : getEntry (eraseEntry st.pending_bundles id) id = none := by
    rw [getEntry_eraseEntry, if_pos rfl]
  rw [waitAux, hget]
  cases rest with
  | nil =>
    show getEntry (setStatus (eraseEntry st.pending_bundles id) id "failed") id = none
    rw [setStatus_absent _ herase]
    exact herase
  | cons p' rest' =>
    show getEntry (waitAux id (p' :: rest')
      { st with pending_bundles := eraseEntry st.pending_bundles id }).2.pending_bundles
        id = none
    exact waitAux_preserves_absent id _ _ herase

/-! ### Operation-level lemmas for the revocation/state-machine claim -/

theorem validate_session_snd_shape (sessions : List (String × SessionTokenData))
    (t : String) (now : ℚ) :
    (validate_session sessions t now).2 = sessions ∨
    ∃ v, (validate_session sessions t now).2 = setEntry sessions t v := by
  unfold validate_session
  cases hg : getEntry sessions t with
  | none => exact .inl rfl
  | some sd =>
    by_cases h1 : sd.is_active = false
    · simp [h1]
    · by_cases h2 : sd.config.expiry_time < pyInt now
      · refine .inr ⟨{ sd with is_active := false }, ?_⟩
        simp [h1, h2]
      · by_cases h3 : sd.uses_remaining = 0
        · refine .inr ⟨{ sd with is_active := false }, ?_⟩
          simp [h1, h2, h3]
        · simp [h1, h2, h3]

theorem validate_session_fst_ok (sessions : List (String × SessionTokenData))
    (t : String) (now : ℚ) (sd : SessionTokenData)
    (h : (validate_session sessions t now).1 = .ok sd) :
    (validate_session sessions t now).2 = sessions := by
  unfold validate_session at h ⊢
  cases hg : getEntry sessions t with
  | none => rfl
  | some sd0 =>
    rw [hg] at h
    by_cases h1 : sd0.is_active = false
    · simp [h1]
    · by_cases h2 : sd0.config.expiry_time < pyInt now
      · simp [h1, h2] at h
      · by_cases h3 : sd0.uses_remaining = 0
        · simp [h1, h2, h3] at h
        · simp [h1, h2, h3]

theorem check_rate_limit_sessions (S : SessionState) (tk : String) (now : ℚ) :
    (check_rate_limit S tk now).2.sessions = S.sessions := by
  unfold check_rate_limit
  cases hg : getEntry S.sessions tk with
  | none => rfl
  | some sd =>
    by_cases hc : sd.config.rate_limit_per_minute ≤
      ((prune ((getEntry S.rate_limit_cache tk).getD []) now).length : ℤ) <;>
      simp [hc]

theorem use_session_absent (st : SessionState) (t : String) (now : ℚ) (b : Bool)
    (h : getEntry st.sessions t = none) :
    use_session st t now b = (.error .invalidToken, st, []) := by
  have hv : validate_session st.sessions t now = (.error .invalidToken, st.sessions) := by
    unfold validate_session
    rw [h]
  unfold use_session
  rw [hv]

theorem use_session_inactive (st : SessionState) (t : String) (now : ℚ) (b : Bool)
    (sd : SessionTokenData) (hget : getEntry st.sessions t = some sd)
    (hinact : sd.is_active = false) :
    use_session st t now b = (.error .inactive, st, []) := by
  have hv := @validate_session_inactive st.sessions t now sd hget hinact
  unfold use_session
  rw [hv]

theorem use_session_sessions_shape (st : SessionState) (t : String) (now : ℚ) (b : Bool) :
    (use_session st t now b).2.1.sessions = st.sessions ∨
    ∃ v, (use_session st t now b).2.1.sessions = setEntry st.sessions t v := by
  unfold use_session
  cases hval : validate_session st.sessions t now with
  | mk res sessions' =>
    cases res with
    | error e =>
      have hsh := validate_session_snd_shape st.sessions t now
      rw [hval] at hsh
      simpa using hsh
    | ok sd =>
      have hfst : (validate_session st.sessions t now).1 = .ok sd := by rw [hval]
      have hse : sessions' = st.sessions := by
        have h2 := validate_session_fst_ok st.sessions t now sd hfst
        rw [hval] at h2
        simpa using h2
      subst hse
      dsimp only
      cases hrc : check_rate_limit st t now with
      | mk res2 st2 =>
        have hs2 : st2.sessions = st.sessions := by
          have h3 := check_rate_limit_sessions st t now
          rw [hrc] at h3
          exact h3
        cases res2 with
        | error e => exact .inl hs2
        | ok u =>
          cases b with
          | false => exact .inl hs2
          | true =>
            refine .inr ⟨(if 0 < sd.uses_remaining then
                { sd with uses_remaining := sd.uses_remaining - 1,
                          is_active := if sd.uses_remaining - 1 = 0 then false
                            else sd.is_active }
              else sd), ?_⟩
            dsimp only
            rw [hs2]
            simp

theorem use_session_sessions_other (st : SessionState) (t' t : String) (now : ℚ)
    (b : Bool) (h : t ≠ t') :
    getEntry (use_session st t' now b).2.1.sessions t = getEntry st.sessions t := by
  rcases use_session_sessions_shape st t' now b with hsh | ⟨v, hsh⟩
  · rw [hsh]
  · rw [hsh]
    exact getEntry_setEntry_ne _ _ _ _ h

theorem revoke_session_sessions_shape (st : SessionState) (t : String) (hw so : Bool) :
    (revoke_session st t hw so).2.sessions = st.sessions ∨
    (revoke_session st t hw so).2.sessions = eraseEntry st.sessions t := by
  unfold revoke_session
  by_cases hwf : hw = false
  · simp [hwf]
  · rw [if_neg hwf]
    cases hg : getEntry st.sessions t with
    | none => exact .inl rfl
    | some sd =>
      by_cases hso : so = false
      · simp [hso]
      · simp [hso]

theorem create_session_sessions_shape (st : SessionState) (t : String)
    (cfg : SessionKeyConfig) (now : ℤ) (hw so : Bool) :
    (create_session st t cfg now hw so).2.sessions = st.sessions ∨
    ∃ v, (create_session st t cfg now hw so).2.sessions = setEntry st.sessions t v := by
  unfold create_session
  by_cases hwf : hw = false
  · simp [hwf]
  · by_cases hso : so = false
    · simp [hwf, hso]
    · simp [hwf, hso]

theorem applyOp_preserves_absent (st : SessionState) (op : SessionOp) (t : String)
    (hnc : opCreatesToken op t = false) (h : getEntry st.sessions t = none) :
    getEntry (applyOp st op).sessions t = none := by
  cases op with
  | useOp t' now b =>
    show getEntry (use_session st t' now b).2.1.sessions t = none
    by_cases ht : t' = t
    · subst ht
      rw [use_session_absent st t' now b h]
      exact h
    · rw [use_session_sessions_other st t' t now b (fun hh => ht hh.symm)]
      exact h
  | revokeOp t' hw so =>
    show getEntry (revoke_session st t' hw so).2.sessions t = none
    rcases revoke_session_sessions_shape st t' hw so with hsh | hsh
    · rw [hsh]; exact h
    · rw [hsh, getEntry_eraseEntry]
      by_cases ht : t = t'
      · rw [if_pos ht]
      · rw [if_neg ht]; exact h
  | createOp t' cfg now hw so =>
    have ht : ¬ t' = t := by
      intro hh
      rw [opCreatesToken] at hnc
      simp [hh] at hnc
    show getEntry (create_session st t' cfg now hw so).2.sessions t = none
    rcases create_session_sessions_shape st t' cfg now hw so with hsh | ⟨v, hsh⟩
    · rw [hsh]; exact h
    · rw [hsh, getEntry_setEntry_ne _ _ _ _ (fun hh => ht hh.symm)]
      exact h
  | sweepOp now =>
    show getEntry ((sweep st now).sessions) t = none
    exact getEntry_filter_none _ _ _ h

theorem applyOps_preserves_absent (st : SessionState) (ops : List SessionOp) (t : String)
    (hops : ∀ op ∈ ops, opCreatesToken op t = false)
    (h : getEntry st.sessions t = none) :
    getEntry (applyOps st ops).sessions t = none := by
  induction ops generalizing st with
  | nil => exact h
  | cons op rest ih =>
    show getEntry (applyOps (applyOp st op) rest).sessions t = none
    exact ih (applyOp st op)
      (fun o ho => hops o (List.mem_cons_of_mem _ ho))
      (applyOp_preserves_absent st op t (hops op (List.mem_cons_self _ _)) h)

theorem applyOp_no_reactivation (st : SessionState) (op : SessionOp) (t : String)
    (sd sd' : SessionTokenData)
    (hnd : keysNodup st.sessions) (hnc : opCreatesToken op t = false)
    (hget : getEntry st.sessions t = some sd) (hinact : sd.is_active = false)
    (hget' : getEntry (applyOp st op).sessions t = some sd') :
    sd'.is_active = false := by
  cases op with
  | useOp t' now b =>
    have hg2 : getEntry (use_session st t' now b).2.1.sessions t = some sd' := hget'
    by_cases ht : t' = t
    · subst ht
      rw [use_session_inactive st t' now b sd hget hinact] at hg2
      rw [hget] at hg2
      injection hg2 with hg2
      rw [← hg2]
      exact hinact
    · rw [use_session_sessions_other st t' t now b (fun hh => ht hh.symm), hget] at hg2
      injection hg2 with hg2
      rw [← hg2]
      exact hinact
  | revokeOp t' hw so =>
    have hg2 : getEntry (revoke_session st t' hw so).2.sessions t = some sd' := hget'
    rcases revoke_session_sessions_shape st t' hw so with hsh | hsh
    · rw [hsh, hget] at hg2
      injection hg2 with hg2
      rw [← hg2]
      exact hinact
    · rw [hsh, getEntry_eraseEntry] at hg2
      by_cases ht : t = t'
      · rw [if_pos ht] at hg2
        exact absurd hg2 (by simp)
      · rw [if_neg ht, hget] at hg2
        injection hg2 with hg2
        rw [← hg2]
        exact hinact
  | createOp t' cfg now hw so =>
    have ht : ¬ t' = t := by
      intro hh
      rw [opCreatesToken] at hnc
      simp [hh] at hnc
    have hg2 : getEntry (create_session st t' cfg now hw so).2.sessions t = some sd' :=
      hget'
    rcases create_session_sessions_shape st t' cfg now hw so with hsh | ⟨v, hsh⟩
    · rw [hsh, hget] at hg2
      injection hg2 with hg2
      rw [← hg2]
      exact hinact
    · rw [hsh, getEntry_setEntry_ne _ _ _ _ (fun hh => ht hh.symm), hget] at hg2
      injection hg2 with hg2
      rw [← hg2]
      exact hinact
  | sweepOp now =>
    have hg2 : getEntry ((sweep st now).sessions) t = some sd' := hget'
    have hkeep := getEntry_filter_of_nodup st.sessions _ t sd sd' hnd hget hg2
    have hp := hkeep.2
    simp only [Bool.and_eq_true] at hp
    rw [hinact] at hp
    exact absurd hp.1 (by simp)

theorem applyOp_preserves_keysNodup (st : SessionState) (op : SessionOp)
    (h : keysNodup st.sessions) : keysNodup (applyOp st op).sessions := by
  cases op with
  | useOp t' now b =>
    show keysNodup (use_session st t' now b).2.1.sessions
    rcases use_session_sessions_shape st t' now b with hsh | ⟨v, hsh⟩
    · rw [hsh]; exact h
    · rw [hsh]; exact keysNodup_setEntry _ _ _ h
  | revokeOp t' hw so =>
    show keysNodup (revoke_session st t' hw so).2.sessions
    rcases revoke_session_sessions_shape st t' hw so with hsh | hsh
    · rw [hsh]; exact h
    · rw [hsh]; exact keysNodup_eraseEntry _ _ h
  | createOp t' cfg now hw so =>
    show keysNodup (create_session st t' cfg now hw so).2.sessions
    rcases create_session_sessions_shape st t' cfg now hw so with hsh | ⟨v, hsh⟩
    · rw [hsh]; exact h
    · rw [hsh]; exact keysNodup_setEntry _ _ _ h
  | sweepOp now =>
    show keysNodup ((sweep st now).sessions)
    exact keysNodup_filter _ _ h

/-- Claim C1 (corrected): in `_wait_for_bundle_confirmation`,
(i) a confirmed-success outcome removes the bundle id from the pending
table and appends exactly that record to the history table;
(ii) every error outcome leaves the history table untouched — so only
success appends to history;
(iii) but when the relay reports `pending` on every attempt (retry
exhaustion), the loop raises the timeout error while LEAVING the bundle
id in the pending table, merely marking its record `"timeout"` — the
pending table is not freed, contrary to the original claim;
(iv) a relay-reported `failed` status does remove the bundle id from the
pending table. -/
theorem claim_C1 :
    (∀ (id : String) (polls : List (RelayStatus × ℚ)) (st : JitoState) (r : BundleResult),
      (waitAux id polls st).1 = .ok r →
      getEntry (waitAux id polls st).2.pending_bundles id = none ∧
      (waitAux id polls st).2.bundle_history = st.bundle_history ++ [r]) ∧
    (∀ (id : String) (polls : List (RelayStatus × ℚ)) (st : JitoState) (e : JitoError),
      (waitAux id polls st).1 = .error e →
      (waitAux id polls st).2.bundle_history = st.bundle_history) ∧
    (∀ (id : String) (polls : List (RelayStatus × ℚ)) (st : JitoState) (r : BundleResult),
      (∀ p ∈ polls, p.1 = RelayStatus.pending) →
      getEntry st.pending_bundles id = some r →
      (waitAux id polls st).1 = .error .confirmationTimeout ∧
      getEntry (waitAux id polls st).2.pending_bundles id =
        some { r with status := "timeout" }) ∧
    (∀ (id : String) (q : ℚ) (rest : List (RelayStatus × ℚ)) (st : JitoState)
      (r : BundleResult),
      getEntry st.pending_bundles id = some r →
      getEntry (waitAux id ((RelayStatus.failed, q) :: rest) st).2.pending_bundles id =
        none) :=
  ⟨waitAux_ok, waitAux_error_history, waitAux_all_pending, waitAux_failed_head⟩

/-- Counterexample to C1 as stated: a single-retry run against a relay
that reports `pending` reaches the terminal retry-exhaustion outcome
(the timeout error), yet the bundle id "b" is still present in the
pending table afterwards, marked `"timeout"`. -/
theorem claim_C1_counterexample :
    (waitAux "b" [(.pending, 1)] sampleJitoState).1 = .error .confirmationTimeout ∧
    getEntry (waitAux "b" [(.pending, 1)] sampleJitoState).2.pending_bundles "b" =
      some { samplePending with status := "timeout" } ∧
    getEntry (waitAux "b" [(.pending, 1)] sampleJitoState).2.pending_bundles "b" ≠
      none := by
  refine ⟨rfl, rfl, ?_⟩
  have h : getEntry (waitAux "b" [(.pending, 1)] sampleJitoState).2.pending_bundles "b" =
      some { samplePending with status := "timeout" } := rfl
  rw [h]
  simp

/-- Witness for C1 (amended): a confirmed poll removes "b" from pending
and appends the confirmed record to history. -/
theorem claim_C1_witness :
    getEntry (waitAux "b" [(.confirmed (some 7), 2)] sampleJitoState).2.pending_bundles
      "b" = none ∧
    (waitAux "b" [(.confirmed (some 7), 2)] sampleJitoState).2.bundle_history =
      sampleJitoState.bundle_history ++
        [{ samplePending with status := "confirmed",
                               confirmation_time := some 2,
                               block_height := some 7 }] :=
  claim_C1.1 "b" [(.confirmed (some 7), 2)] sampleJitoState
    { samplePending with status := "confirmed",
                          confirmation_time := some 2,
                          block_height := some 7 } rfl

/-- Claim C6 (confirmed): (i) after a successful `revoke_session`, the
token is gone from the live table, and it stays gone across any sequence
of operations none of which is a `create_session` call generating that
very token — so every later `use_session` on it fails with the NotFound
error ("Invalid session token") and never succeeds; (ii) no operation
(other than such a token-colliding create, which the token generator's
fresh randomness precludes) ever turns a stored credential's `is_active`
from false back to true; (iii) the unique-key well-formedness of the
sessions dict, which (ii) relies on for the sweep case, is preserved by
every operation. -/
theorem claim_C6 :
    (∀ (st : SessionState) (t : String) (hasW : Bool) (sig : String)
      (st1 : SessionState),
      revoke_session st t hasW true = (.ok sig, st1) →
      ∀ (ops : List SessionOp), (∀ op ∈ ops, opCreatesToken op t = false) →
      getEntry (applyOps st1 ops).sessions t = none ∧
      ∀ (now : ℚ) (sendOk : Bool),
        (use_session (applyOps st1 ops) t now sendOk).1 = .error .invalidToken) ∧
    (∀ (st : SessionState) (op : SessionOp) (t : String) (sd sd' : SessionTokenData),
      keysNodup st.sessions → opCreatesToken op t = false →
      getEntry st.sessions t = some sd → sd.is_active = false →
      getEntry (applyOp st op).sessions t = some sd' → sd'.is_active = false) ∧
    (∀ (st : SessionState) (op : SessionOp),
      keysNodup st.sessions → keysNodup (applyOp st op).sessions) := by
  refine ⟨?_, applyOp_no_reactivation, applyOp_preserves_keysNodup⟩
  intro st t hasW sig st1 hrev ops hops
  have hst1 : getEntry st1.sessions t = none := by
    unfold revoke_session at hrev
    by_cases hw : hasW = false
    · rw [if_pos hw] at hrev
      simp at hrev
    · rw [if_neg hw] at hrev
      cases hg : getEntry st.sessions t with
      | none =>
        rw [hg] at hrev
        simp at hrev
      | some sd =>
        rw [hg] at hrev
        simp at hrev
        obtain ⟨hsig, hstate⟩ := hrev
        subst hstate
        show getEntry (eraseEntry st.sessions t) t = none
        rw [getEntry_eraseEntry, if_pos rfl]
  have habs := applyOps_preserves_absent st1 ops t hops hst1
  refine ⟨habs, ?_⟩
  intro now sendOk
  rw [use_session_absent _ _ _ _ habs]

/-- Witness for C6: revoking the sample credential empties the table;
after a subsequent sweep the token is still absent and a later
authorization attempt fails with the NotFound error. -/
theorem claim_C6_witness :
    getEntry (applyOps ⟨[], []⟩ [SessionOp.sweepOp 0]).sessions "t" = none ∧
    (use_session (applyOps ⟨[], []⟩ [SessionOp.sweepOp 0]) "t" 42 true).1 =
      .error .invalidToken := by
  have h := claim_C6.1 sampleState "t" true "sig" ⟨[], []⟩ rfl
    [SessionOp.sweepOp 0]
    (by
      intro op hop
      simp at hop
      subst hop
      rfl)
  exact ⟨h.1, h.2 42 true⟩

end PodProtocol
